import Mathlib

/-!
Verification development for the two notebooks of this repository:

* the Generative Teaching Network (GTN) notebook (teacher/learner networks,
  unrolled inner training loop, outer meta-loop, simple architecture search), and
* the StyleGAN2 components notebook (`ModulatedConv2d` with its per-sample
  `forward` and grouped `forward_efficient`).

Tensors are embedded as `Fin`-indexed real-valued functions, so a tensor of
shape (b, c, h, w) is a term of `Tensor4 b c h w`.  All tensor arithmetic that
the notebooks perform (linear layers, convolution, train-mode batch
normalization, leaky ReLU, max pooling, view/flatten reshapes) is defined
pointwise from the corresponding PyTorch semantics, over exact real arithmetic.
The reverse-mode differentiation engine, dataset iteration and the Adam
optimizer are the spec's declared external collaborators; they enter the loop
models as explicit oracle parameters (`GTNOracles`), while all control flow,
state threading and the functional SGD-with-momentum update of `higher`'s
differentiable optimizer are embedded concretely.
-/

noncomputable section

open Finset

/-! ### Hyperparameters (GTN notebook, cell "Set important parameters") -/

def learning_rate : ℝ := 0.01

def inner_loop_iterations : ℕ := 32

def outer_loop_iterations : ℕ := 5

def num_classes : ℕ := 10

def noise_size : ℕ := 64

def img_size : ℕ := 28

def inner_loop_batch_size : ℕ := 128

def outer_loop_batch_size : ℕ := 128

def mnist_mean : ℝ := 0.1307

def mnist_std : ℝ := 0.3081

/-! ### Tensors and the tensor operations used by the notebooks -/

/-- A rank-1 tensor of length `n`. -/
abbrev Tensor1 (n : ℕ) := Fin n → ℝ

/-- A rank-2 tensor of shape (m, n). -/
abbrev Tensor2 (m n : ℕ) := Fin m → Fin n → ℝ

/-- A rank-3 tensor of shape (c, h, w). -/
abbrev Tensor3 (c h w : ℕ) := Fin c → Fin h → Fin w → ℝ

/-- A rank-4 tensor of shape (b, c, h, w). -/
abbrev Tensor4 (b c h w : ℕ) := Fin b → Fin c → Fin h → Fin w → ℝ

/-- Embedding of `nn.Linear` applied to one sample: `x @ W.T + bias`. -/
def linearOne {o i : ℕ} (W : Tensor2 o i) (bias : Tensor1 o) (x : Tensor1 i) : Tensor1 o :=
  fun j => (∑ l, W j l * x l) + bias j

/-- Embedding of `nn.Linear` applied to a batch. -/
def linearB {b o i : ℕ} (W : Tensor2 o i) (bias : Tensor1 o) (x : Tensor2 b i) : Tensor2 b o :=
  fun k => linearOne W bias (x k)

/-- Embedding of `F.leaky_relu` with the given negative slope. -/
def leakyRelu (slope x : ℝ) : ℝ := if x < 0 then slope * x else x

/-- Spatial size of a stride-1 convolution output: input size `h`, square kernel
`k`, symmetric zero padding `p`. -/
def convOutSize (h k p : ℕ) : ℕ := h + 2 * p - k + 1

/-- Spatial size of `F.max_pool2d(·, 2)` output (kernel 2, stride 2, floor mode). -/
def poolOutSize (h : ℕ) : ℕ := h / 2

/-- Read a spatial position of a zero-padded image: out-of-range indices read 0. -/
def readPad {h w : ℕ} (v : Fin h → Fin w → ℝ) (y x : ℤ) : ℝ :=
  if hy : 0 ≤ y ∧ y < (h : ℤ) then
    if hx : 0 ≤ x ∧ x < (w : ℤ) then v ⟨y.toNat, by omega⟩ ⟨x.toNat, by omega⟩
    else 0
  else 0

/-- Embedding of `F.conv2d` (stride 1, square kernel, zero padding `p`, no bias) on one image. -/
def conv2dOne {ic oc k h w : ℕ} (p : ℕ) (weight : Fin oc → Fin ic → Fin k → Fin k → ℝ)
    (img : Tensor3 ic h w) : Tensor3 oc (convOutSize h k p) (convOutSize w k p) :=
  fun o y x => ∑ c, ∑ a, ∑ d, weight o c a d *
    readPad (img c) ((y.1 : ℤ) + (a.1 : ℤ) - (p : ℤ)) ((x.1 : ℤ) + (d.1 : ℤ) - (p : ℤ))

/-- Embedding of `nn.Conv2d` (stride 1, square kernel, zero padding `p`, with bias) on a batch. -/
def conv2dBiasB {b ic oc k h w : ℕ} (p : ℕ) (weight : Fin oc → Fin ic → Fin k → Fin k → ℝ)
    (bias : Tensor1 oc) (imgs : Tensor4 b ic h w) :
    Tensor4 b oc (convOutSize h k p) (convOutSize w k p) :=
  fun n o y x => conv2dOne p weight (imgs n) o y x + bias o

/-- Embedding of `F.max_pool2d(x, 2)` on one image: 2×2 windows, stride 2, trailing odd
row/column discarded (floor mode). -/
def maxPool2 {c h w : ℕ} (img : Tensor3 c h w) : Tensor3 c (poolOutSize h) (poolOutSize w) :=
  fun ci y x =>
    max (max (img ci ⟨2 * y.1, by have hy := y.2; simp only [poolOutSize] at hy; omega⟩
                    ⟨2 * x.1, by have hx := x.2; simp only [poolOutSize] at hx; omega⟩)
             (img ci ⟨2 * y.1, by have hy := y.2; simp only [poolOutSize] at hy; omega⟩
                    ⟨2 * x.1 + 1, by have hx := x.2; simp only [poolOutSize] at hx; omega⟩))
        (max (img ci ⟨2 * y.1 + 1, by have hy := y.2; simp only [poolOutSize] at hy; omega⟩
                    ⟨2 * x.1, by have hx := x.2; simp only [poolOutSize] at hx; omega⟩)
             (img ci ⟨2 * y.1 + 1, by have hy := y.2; simp only [poolOutSize] at hy; omega⟩
                    ⟨2 * x.1 + 1, by have hx := x.2; simp only [poolOutSize] at hx; omega⟩))

/-- Embedding of `F.max_pool2d(x, 2)` on a batch. -/
def maxPool2B {b c h w : ℕ} (x : Tensor4 b c h w) :
    Tensor4 b c (poolOutSize h) (poolOutSize w) :=
  fun k => maxPool2 (x k)

/-- PyTorch's `BatchNorm` epsilon (default `eps=1e-5`). -/
def bn_eps : ℝ := 1e-5

/-- The notebooks construct every batch-norm layer with `momentum=0.1`. -/
def bn_momentum : ℝ := 0.1

/-- Per-feature batch mean for `BatchNorm1d` in training mode. -/
def bnMean1 {b n : ℕ} (x : Tensor2 b n) (j : Fin n) : ℝ := (∑ k, x k j) / (b : ℝ)

/-- Per-feature biased batch variance for `BatchNorm1d` in training mode. -/
def bnVar1 {b n : ℕ} (x : Tensor2 b n) (j : Fin n) : ℝ :=
  (∑ k, (x k j - bnMean1 x j) ^ 2) / (b : ℝ)

/-- Embedding of the `BatchNorm1d` training-mode output: normalize with the batch statistics of
the input itself, then apply the learned affine transform. -/
def bn1Out {b n : ℕ} (g bta : Tensor1 n) (x : Tensor2 b n) : Tensor2 b n :=
  fun k j => g j * ((x k j - bnMean1 x j) / Real.sqrt (bnVar1 x j + bn_eps)) + bta j

/-- Running-mean buffer update of a train-mode `BatchNorm1d` forward. -/
def bn1NewMean {b n : ℕ} (rm : Tensor1 n) (x : Tensor2 b n) : Tensor1 n :=
  fun j => (1 - bn_momentum) * rm j + bn_momentum * bnMean1 x j

/-- Running-variance buffer update of a train-mode `BatchNorm1d` forward
(PyTorch uses the unbiased variance here). -/
def bn1NewVar {b n : ℕ} (rv : Tensor1 n) (x : Tensor2 b n) : Tensor1 n :=
  fun j => (1 - bn_momentum) * rv j
    + bn_momentum * ((∑ k, (x k j - bnMean1 x j) ^ 2) / ((b : ℝ) - 1))

/-- Per-channel batch mean for `BatchNorm2d` in training mode. -/
def bnMean2 {b c h w : ℕ} (x : Tensor4 b c h w) (ci : Fin c) : ℝ :=
  (∑ k, ∑ y, ∑ xx, x k ci y xx) / ((b : ℝ) * (h : ℝ) * (w : ℝ))

/-- Per-channel biased batch variance for `BatchNorm2d` in training mode. -/
def bnVar2 {b c h w : ℕ} (x : Tensor4 b c h w) (ci : Fin c) : ℝ :=
  (∑ k, ∑ y, ∑ xx, (x k ci y xx - bnMean2 x ci) ^ 2) / ((b : ℝ) * (h : ℝ) * (w : ℝ))

/-- Embedding of the `BatchNorm2d` training-mode output. -/
def bn2Out {b c h w : ℕ} (g bta : Tensor1 c) (x : Tensor4 b c h w) : Tensor4 b c h w :=
  fun k ci y xx =>
    g ci * ((x k ci y xx - bnMean2 x ci) / Real.sqrt (bnVar2 x ci + bn_eps)) + bta ci

/-- Running-mean buffer update of a train-mode `BatchNorm2d` forward. -/
def bn2NewMean {b c h w : ℕ} (rm : Tensor1 c) (x : Tensor4 b c h w) : Tensor1 c :=
  fun ci => (1 - bn_momentum) * rm ci + bn_momentum * bnMean2 x ci

/-- Running-variance buffer update of a train-mode `BatchNorm2d` forward
(unbiased variance over the `b*h*w` normalization elements). -/
def bn2NewVar {b c h w : ℕ} (rv : Tensor1 c) (x : Tensor4 b c h w) : Tensor1 c :=
  fun ci => (1 - bn_momentum) * rv ci
    + bn_momentum * ((∑ k, ∑ y, ∑ xx, (x k ci y xx - bnMean2 x ci) ^ 2)
        / ((b : ℝ) * (h : ℝ) * (w : ℝ) - 1))

/-- Embedding of `Tensor.view` merging the two leading dimensions, row-major:
flat index `r` addresses entry `(r / n, r % n)`. -/
def viewMerge {α : Type} {m n : ℕ} (f : Fin m → Fin n → α) (r : Fin (m * n)) : α :=
  f ⟨r.1 / n, by
      rcases Nat.eq_zero_or_pos n with h0 | h0
      · exact absurd r.2 (by simp [h0])
      · exact (Nat.div_lt_iff_lt_mul h0).mpr r.2⟩
    ⟨r.1 % n, by
      rcases Nat.eq_zero_or_pos n with h0 | h0
      · exact absurd r.2 (by simp [h0])
      · exact Nat.mod_lt _ h0⟩

/-- Embedding of `Tensor.view` splitting a merged leading dimension back into two, row-major. -/
def viewSplit {α : Type} {m n : ℕ} (f : Fin (m * n) → α) (i : Fin m) (j : Fin n) : α :=
  f ⟨i.1 * n + j.1, by
      have h2 : i.1 * n + j.1 < (i.1 + 1) * n := by
        rw [Nat.succ_mul]; exact Nat.add_lt_add_left j.2 _
      exact Nat.lt_of_lt_of_le h2 (Nat.mul_le_mul i.2 (Nat.le_refl n))⟩

/-- Embedding of `Tensor.view` from shape (b, c*h*w) to shape (b, c, h, w), row-major. -/
def view4 {bN : ℕ} (c h w : ℕ) (v : Fin bN → Fin (c * h * w) → ℝ) : Tensor4 bN c h w :=
  fun k ci y x => v k ⟨ci.1 * (h * w) + y.1 * w + x.1, by
    have h1 : y.1 * w + x.1 < h * w := by
      have h2 : y.1 * w + x.1 < (y.1 + 1) * w := by
        rw [Nat.succ_mul]; exact Nat.add_lt_add_left x.2 _
      exact Nat.lt_of_lt_of_le h2 (Nat.mul_le_mul y.2 (Nat.le_refl w))
    have h3 : ci.1 * (h * w) + (y.1 * w + x.1) < (ci.1 + 1) * (h * w) := by
      rw [Nat.succ_mul]; exact Nat.add_lt_add_left h1 _
    have h4 : (ci.1 + 1) * (h * w) ≤ c * (h * w) :=
      Nat.mul_le_mul ci.2 (Nat.le_refl (h * w))
    calc ci.1 * (h * w) + y.1 * w + x.1
        = ci.1 * (h * w) + (y.1 * w + x.1) := by ring
      _ < c * (h * w) := Nat.lt_of_lt_of_le h3 h4
      _ = c * h * w := by ring⟩

/-- Embedding of `torch.flatten(x, 1)` on one sample: row-major (c, h, w) → c·h·w. -/
def flatten3 {c h w : ℕ} (v : Tensor3 c h w) : Tensor1 (c * h * w) :=
  fun e =>
    if hpos : 0 < h * w then
      have hw : 0 < w := by
        rcases Nat.eq_zero_or_pos w with h0 | h0
        · subst h0; simp at hpos
        · exact h0
      v ⟨e.1 / (h * w), (Nat.div_lt_iff_lt_mul hpos).mpr
          (Nat.lt_of_lt_of_le e.2 (Nat.le_of_eq (Nat.mul_assoc c h w)))⟩
        ⟨e.1 % (h * w) / w, (Nat.div_lt_iff_lt_mul hw).mpr (Nat.mod_lt _ hpos)⟩
        ⟨e.1 % w, Nat.mod_lt _ hw⟩
    else 0

/-- Batched linear layer with PyTorch's runtime dimension check: the matrix
product is only defined when the input's feature size equals the weight's
in-features; otherwise the call raises (modelled as `none`). -/
def linearCheckedB {b o m n : ℕ} (W : Tensor2 o m) (bias : Tensor1 o) (x : Tensor2 b n) :
    Option (Tensor2 b o) :=
  if h : n = m then some (linearB W bias (fun k l => x k (Fin.cast h.symm l)))
  else none

/-! ### Teacher network (GTN notebook, class `Teacher`) -/

/-- From `Teacher.__init__`: `conv1_filters = 64`. -/
def teacher_conv1_filters : ℕ := 64

/-- From `Teacher.__init__`: `fc1_size = 1024`. -/
def fc1_size : ℕ := 1024

/-- From `Teacher.__init__`: `self.fc2_filters = 128`. -/
def fc2_filters : ℕ := 128

/-- From `Teacher.__init__`: `self.fc2_width = img_size`. -/
def fc2_width : ℕ := img_size

/-- From `Teacher.__init__`: `fc2_size = fc2_filters * fc2_width * fc2_width`. -/
def fc2_size : ℕ := fc2_filters * fc2_width * fc2_width

/-- All learnable parameters of the `Teacher` module, including the
`learner_optim_params` pair (initial values `[0.02, 0.5]`): entry 0 is the
learner learning rate, entry 1 the learner momentum. -/
structure TeacherWeights where
  fc1W : Tensor2 fc1_size (noise_size + num_classes)
  fc1B : Tensor1 fc1_size
  bnFc1Gamma : Tensor1 fc1_size
  bnFc1Beta : Tensor1 fc1_size
  fc2W : Tensor2 fc2_size fc1_size
  fc2B : Tensor1 fc2_size
  bnFc2Gamma : Tensor1 fc2_filters
  bnFc2Beta : Tensor1 fc2_filters
  conv1W : Fin teacher_conv1_filters → Fin fc2_filters → Fin 3 → Fin 3 → ℝ
  conv1B : Tensor1 teacher_conv1_filters
  bnConv1Gamma : Tensor1 teacher_conv1_filters
  bnConv1Beta : Tensor1 teacher_conv1_filters
  conv2W : Fin 1 → Fin teacher_conv1_filters → Fin 3 → Fin 3 → ℝ
  conv2B : Tensor1 1
  bnConv2Gamma : Tensor1 1
  bnConv2Beta : Tensor1 1
  learner_optim_params : Fin 2 → ℝ

/-- The non-learnable running-statistics buffers of the Teacher's four
batch-norm layers (mutated by every train-mode forward, never read by it). -/
structure TeacherStats where
  rmFc1 : Tensor1 fc1_size
  rvFc1 : Tensor1 fc1_size
  rmFc2 : Tensor1 fc2_filters
  rvFc2 : Tensor1 fc2_filters
  rmConv1 : Tensor1 teacher_conv1_filters
  rvConv1 : Tensor1 teacher_conv1_filters
  rmConv2 : Tensor1 1
  rvConv2 : Tensor1 1

/-- Embedding of `Teacher.forward` in training mode (the only mode the notebook uses).
Follows the source line by line: concatenate noise and one-hot target, two
fully connected blocks (linear / leaky ReLU / batch norm), reshape to
(b, 128, 28, 28), two convolutional blocks, then
`(tanh(x) + 1 - 2*mnist_mean) / (2*mnist_std)`.  Returns the `(x, target)`
pair of the source together with the updated batch-norm running statistics
(the side effect of a train-mode forward). -/
def Teacher.forward {b : ℕ} (tw : TeacherWeights) (ts : TeacherStats)
    (x : Tensor2 b noise_size) (target : Tensor2 b num_classes) :
    (Tensor4 b 1 img_size img_size × Tensor2 b num_classes) × TeacherStats :=
  let x0 : Tensor2 b (noise_size + num_classes) := fun k => Fin.append (x k) (target k)
  let y1 := linearB tw.fc1W tw.fc1B x0
  let a1 := fun k j => leakyRelu 0.1 (y1 k j)
  let z1 := bn1Out tw.bnFc1Gamma tw.bnFc1Beta a1
  let y2 := linearB tw.fc2W tw.fc2B z1
  let a2 : Fin b → Fin (fc2_filters * fc2_width * fc2_width) → ℝ :=
    fun k j => leakyRelu 0.1 (y2 k j)
  let v2 := view4 fc2_filters fc2_width fc2_width a2
  let z2 := bn2Out tw.bnFc2Gamma tw.bnFc2Beta v2
  let c1 := conv2dBiasB 1 tw.conv1W tw.conv1B z2
  let z3 := bn2Out tw.bnConv1Gamma tw.bnConv1Beta c1
  let a3 := fun k ci y xx => leakyRelu 0.1 (z3 k ci y xx)
  let c2 := conv2dBiasB 1 tw.conv2W tw.conv2B a3
  let z4 := bn2Out tw.bnConv2Gamma tw.bnConv2Beta c2
  let out : Tensor4 b 1 img_size img_size :=
    fun k ci y xx => (Real.tanh (z4 k ci y xx) + 1 - 2 * mnist_mean) / (2 * mnist_std)
  ((out, target),
   ⟨bn1NewMean ts.rmFc1 a1, bn1NewVar ts.rvFc1 a1,
    bn2NewMean ts.rmFc2 v2, bn2NewVar ts.rvFc2 v2,
    bn2NewMean ts.rmConv1 c1, bn2NewVar ts.rvConv1 c1,
    bn2NewMean ts.rmConv2 c2, bn2NewVar ts.rvConv2 c2⟩)

/-- Strict lower bound of every Teacher output pixel: a 0-valued pixel
normalized with the MNIST statistics `(x - mean)/std` at `x = 0`. -/
def teacher_out_lo : ℝ := (0 - 2 * mnist_mean) / (2 * mnist_std)

/-- Strict upper bound of every Teacher output pixel: a 1-valued pixel
normalized with the MNIST statistics. -/
def teacher_out_hi : ℝ := (2 - 2 * mnist_mean) / (2 * mnist_std)

/-! ### Learner network (GTN notebook, class `Learner`) -/

/-- From `Learner.__init__`: `c1_size = (img_size - 3 + 1) // 2`. -/
def c1_size : ℕ := (img_size - 3 + 1) / 2

/-- From `Learner.__init__`: `c2_size = (c1_size - 3 + 1) // 2`. -/
def c2_size : ℕ := (c1_size - 3 + 1) / 2

/-- Resolution of the duck-typed optional width arguments of
`Learner.__init__`: an explicitly supplied width is used as is, an omitted
(`None`) width is replaced by the randomly sampled one. -/
def resolveWidth (arg : Option ℕ) (sampled : ℕ) : ℕ := arg.getD sampled

/-- The learnable parameters of a `Learner` with `conv1_filters = n1` and
`conv2_filters = n2`.  The fully connected layer is sized
`conv2_filters * c2_size * c2_size → num_classes` exactly as in the source. -/
structure LearnerWeights (n1 n2 : ℕ) where
  conv1W : Fin n1 → Fin 1 → Fin 3 → Fin 3 → ℝ
  conv1B : Tensor1 n1
  bn1Gamma : Tensor1 n1
  bn1Beta : Tensor1 n1
  conv2W : Fin n2 → Fin n1 → Fin 3 → Fin 3 → ℝ
  conv2B : Tensor1 n2
  bn2Gamma : Tensor1 n2
  bn2Beta : Tensor1 n2
  fcW : Tensor2 num_classes (n2 * c2_size * c2_size)
  fcB : Tensor1 num_classes
  bn3Gamma : Tensor1 num_classes
  bn3Beta : Tensor1 num_classes

/-- The flattened feature size actually produced by the Learner's
convolution/pooling pipeline on a 28×28 single-channel input: two
(conv 3×3 valid, pool /2) stages applied to `img_size`. -/
def learnerFlatWidth (n2 : ℕ) : ℕ :=
  n2 * poolOutSize (convOutSize (poolOutSize (convOutSize img_size 3 0)) 3 0)
     * poolOutSize (convOutSize (poolOutSize (convOutSize img_size 3 0)) 3 0)

/-- Embedding of `Learner.forward` in training mode: two blocks of (conv / leaky ReLU /
batch norm / max-pool 2), flatten, fully connected layer (with PyTorch's
runtime dimension check, `none` = shape error), final `BatchNorm1d`. -/
def Learner.forward {n1 n2 b : ℕ} (lw : LearnerWeights n1 n2)
    (x : Tensor4 b 1 img_size img_size) : Option (Tensor2 b num_classes) :=
  let h1 := conv2dBiasB 0 lw.conv1W lw.conv1B x
  let a1 := fun k ci y xx => leakyRelu 0.1 (h1 k ci y xx)
  let z1 := bn2Out lw.bn1Gamma lw.bn1Beta a1
  let p1 := maxPool2B z1
  let h2 := conv2dBiasB 0 lw.conv2W lw.conv2B p1
  let a2 := fun k ci y xx => leakyRelu 0.1 (h2 k ci y xx)
  let z2 := bn2Out lw.bn2Gamma lw.bn2Beta a2
  let p2 := maxPool2B z2
  let flat := fun k => flatten3 (p2 k)
  (linearCheckedB lw.fcW lw.fcB flat).map (fun s => bn1Out lw.bn3Gamma lw.bn3Beta s)

/-! ### ModulatedConv2d (StyleGAN2 notebook) -/

/-- The learnable state of a `ModulatedConv2d` layer: the convolution weight,
the style-scale linear transform, and the padding chosen at construction. -/
structure ModulatedConv2d (w_dim in_channels out_channels kernel_size : ℕ) where
  conv_weight : Fin out_channels → Fin in_channels → Fin kernel_size → Fin kernel_size → ℝ
  styleW : Tensor2 in_channels w_dim
  styleB : Tensor1 in_channels
  padding : ℕ

/-- The constructor `ModulatedConv2d.__init__` fixes `self.eps = 1e-6`. -/
def ModulatedConv2d.eps : ℝ := 1e-6

/-- The demodulation denominator `(w' ** 2).sum([...]) + eps` for one output
channel `o`, where `w' = conv_weight * style_scale` broadcast over the input
channel dimension. -/
def demodDenom {wd ic oc k : ℕ} (m : ModulatedConv2d wd ic oc k)
    (style_scale : Tensor1 ic) (o : Fin oc) : ℝ :=
  (∑ c, ∑ a, ∑ d, (m.conv_weight o c a d * style_scale c) ^ 2) + ModulatedConv2d.eps

/-- The demodulated weights `w'' = w' / sqrt((w' ** 2).sum(...) + eps)` for one
style-scale vector. -/
def demodWeight {wd ic oc k : ℕ} (m : ModulatedConv2d wd ic oc k)
    (style_scale : Tensor1 ic) : Fin oc → Fin ic → Fin k → Fin k → ℝ :=
  fun o c a d =>
    m.conv_weight o c a d * style_scale c / Real.sqrt (demodDenom m style_scale o)

/-- Embedding of `ModulatedConv2d.forward`: the per-sample loop.  For each sample, compute
its style scale, modulate and demodulate the shared convolution weight, and
convolve that sample alone; the per-sample results are concatenated back into
a batch (here: indexed by the batch coordinate). -/
def ModulatedConv2d.forward {wd ic oc k b h w : ℕ} (m : ModulatedConv2d wd ic oc k)
    (image : Tensor4 b ic h w) (wv : Tensor2 b wd) :
    Tensor4 b oc (convOutSize h k m.padding) (convOutSize w k m.padding) :=
  fun i => conv2dOne m.padding (demodWeight m (linearOne m.styleW m.styleB (wv i))) (image i)

/-- Embedding of `F.conv2d(..., groups=g)` with a weight of shape (g*ocg, icg, k, k) and an
input of shape (g*icg, h, w) (the batch dimension of size 1 is left implicit):
output channel `r` belongs to group `r / ocg` and convolves input channels
`(r / ocg) * icg + c`. -/
def conv2dGrouped {g icg ocg k h w : ℕ} (p : ℕ)
    (weight : Fin (g * ocg) → Fin icg → Fin k → Fin k → ℝ)
    (img : Fin (g * icg) → Fin h → Fin w → ℝ) :
    Fin (g * ocg) → Fin (convOutSize h k p) → Fin (convOutSize w k p) → ℝ :=
  fun r y x => ∑ c, ∑ a, ∑ d, weight r c a d *
    readPad (img ⟨r.1 / ocg * icg + c.1, by
        have hoc : 0 < ocg := by
          rcases Nat.eq_zero_or_pos ocg with h0 | h0
          · exact absurd r.2 (by simp [h0])
          · exact h0
        have hdiv : r.1 / ocg < g := (Nat.div_lt_iff_lt_mul hoc).mpr r.2
        have h2 : r.1 / ocg * icg + c.1 < (r.1 / ocg + 1) * icg := by
          rw [Nat.succ_mul]; exact Nat.add_lt_add_left c.2 _
        exact Nat.lt_of_lt_of_le h2 (Nat.mul_le_mul hdiv (Nat.le_refl icg))⟩)
      ((y.1 : ℤ) + (a.1 : ℤ) - (p : ℤ)) ((x.1 : ℤ) + (d.1 : ℤ) - (p : ℤ))

/-- Embedding of `ModulatedConv2d.forward_efficient`, including its two checked
reshapes.  The source reads `out_channels = w_prime_prime.shape[2]`, which is
the IN-channel count (`w_prime_prime` has shape
(b, out_channels, in_channels, k, k)).  Consequently
`w_prime_prime.view(batchsize * out_channels, in_channels, k, k)` is a legal
reshape only when the layer has `out_channels = in_channels` (otherwise the
element counts differ and the call raises a RuntimeError), and the final
`efficient_out.view(batchsize, out_channels, *image.shape[2:])` is legal only
when the grouped convolution is size-preserving (output spatial size equals
the input's).  Each illegal reshape is modelled as `none`; on success the
returned tensor has the source's output shape (b, in_channels, h, w). -/
def ModulatedConv2d.forward_efficient {wd ic oc k b h w : ℕ}
    (m : ModulatedConv2d wd ic oc k) (image : Tensor4 b ic h w) (wv : Tensor2 b wd) :
    Option (Tensor4 b ic h w) :=
  let style_scale := linearB m.styleW m.styleB wv
  let w2 := fun i => demodWeight m (style_scale i)
  if h1 : oc = ic then
    let efficient_filter := viewMerge (fun i (o : Fin ic) => w2 i (Fin.cast h1.symm o))
    let efficient_image := viewMerge image
    let efficient_out := conv2dGrouped m.padding efficient_filter efficient_image
    if h2 : convOutSize h k m.padding = h ∧ convOutSize w k m.padding = w then
      some (fun i o y x =>
        viewSplit efficient_out i o (Fin.cast h2.1.symm y) (Fin.cast h2.2.symm x))
    else none
  else none

/-! ### GTN inner and outer training loops -/

/-- One curriculum entry: a batch of noise vectors. -/
abbrev CurrBatch := Tensor2 inner_loop_batch_size noise_size

/-- One synthetic training batch produced by the Teacher. -/
abbrev SynthImages := Tensor4 inner_loop_batch_size 1 img_size img_size

/-- The fixed cyclic label sequence
`label = [x % num_classes for x in range(inner_loop_batch_size)]`, identical at
every inner step and outer iteration. -/
def gtnLabel (k : Fin inner_loop_batch_size) : Fin num_classes :=
  ⟨k.1 % num_classes, Nat.mod_lt _ (by decide)⟩

/-- Embedding of `F.one_hot(label, num_classes)` as a real tensor. -/
def gtnOneHot : Tensor2 inner_loop_batch_size num_classes :=
  fun k c => if gtnLabel k = c then 1 else 0

/-- A functional snapshot of the student's parameters together with the
momentum buffer of its differentiable SGD optimizer (`none` before the first
step, as in a freshly constructed `optim.SGD`).  The parameter index set `ι`
is abstract: it enumerates the scalar entries of all of the Learner's
parameter tensors. -/
structure InnerState (ι : Type) where
  params : ι → ℝ
  velocity : Option (ι → ℝ)

/-- One `diffopt.step(loss)`: the functional SGD-with-momentum update used by
`higher`'s differentiable optimizer (semantics of `torch.optim.SGD` with
dampening 0): the momentum buffer is initialized to the gradient on the first
step and to `momentum * buf + grad` afterwards, and the parameters move by
`-lr * buf`.  A new snapshot is produced; nothing is overwritten. -/
def sgdStep {ι : Type} (lr momentum : ℝ) (g : ι → ℝ) (s : InnerState ι) : InnerState ι :=
  let buf : ι → ℝ :=
    match s.velocity with
    | none => g
    | some v => fun i => momentum * v i + g i
  ⟨fun i => s.params i - lr * buf i, some buf⟩

/-- The state threaded through the inner loop: the student snapshot, the
Teacher's batch-norm running statistics (mutated by each synthetic-data
generation), and the recorded `inner_losses`. -/
structure InnerLoopState (ι : Type) where
  learner : InnerState ι
  stats : TeacherStats
  losses : List ℝ

/-- One real-data batch drawn from a loader. -/
structure RealBatch where
  images : Tensor4 outer_loop_batch_size 1 img_size img_size
  labels : Fin outer_loop_batch_size → Fin num_classes

/-- The external collaborators of the loop code, as declared out of scope by
the specification: the autodiff engine's gradient of the student's
cross-entropy loss (`lossGrad`), the loss value itself, loss/accuracy
evaluation of a student snapshot on real, validation and test data, and the
Adam update of the teacher parameters and curriculum computed from the
backward pass through the recorded inner-loop trajectory. -/
structure GTNOracles (ι : Type) where
  lossGrad : (ι → ℝ) → SynthImages → ι → ℝ
  lossVal : (ι → ℝ) → SynthImages → ℝ
  realLoss : (ι → ℝ) → RealBatch → ℝ
  realAcc : (ι → ℝ) → RealBatch → ℝ
  valAcc : (ι → ℝ) → ℝ
  testAcc : (ι → ℝ) → ℝ
  metaUpdate : TeacherWeights → (ℕ → CurrBatch) → List (InnerLoopState ι) → RealBatch →
    TeacherWeights × (ℕ → CurrBatch)

/-- The student update performed at each inner step: a function of exactly the
learning rate, the momentum, the synthetic batch of this step, and the
previous snapshot (through the loss gradient collaborator). -/
def studentUpdate {ι : Type} (O : GTNOracles ι) (lr momentum : ℝ) (imgs : SynthImages)
    (s : InnerState ι) : InnerState ι :=
  sgdStep lr momentum (O.lossGrad s.params imgs) s

/-- The body of the inner `for step in range(inner_loop_iterations)` loop:
generate a synthetic batch from the curriculum entry of this step, feed it to
the student, and apply one functional optimizer step; the cross-entropy value
is appended to `inner_losses`. -/
def innerLoopStep {ι : Type} (O : GTNOracles ι) (tw : TeacherWeights)
    (curr : ℕ → CurrBatch) (lr momentum : ℝ) (t : ℕ) (s : InnerLoopState ι) :
    InnerLoopState ι :=
  let fwd := Teacher.forward tw s.stats (curr t) gtnOneHot
  let imgs : SynthImages := fwd.1.1
  ⟨studentUpdate O lr momentum imgs s.learner, fwd.2,
   s.losses ++ [O.lossVal s.learner.params imgs]⟩

/-- The inner-loop state after `t` steps (the snapshot trajectory). -/
def innerSnap {ι : Type} (O : GTNOracles ι) (tw : TeacherWeights) (curr : ℕ → CurrBatch)
    (lr momentum : ℝ) (s0 : InnerLoopState ι) : ℕ → InnerLoopState ι
  | 0 => s0
  | t + 1 => innerLoopStep O tw curr lr momentum t (innerSnap O tw curr lr momentum s0 t)

/-- The inner loop as the source runs it: a fold of the step body over
`range(n)` (with `n = inner_loop_iterations` in the notebook). -/
def innerLoopRunN {ι : Type} (O : GTNOracles ι) (tw : TeacherWeights) (curr : ℕ → CurrBatch)
    (lr momentum : ℝ) (s0 : InnerLoopState ι) (n : ℕ) : InnerLoopState ι :=
  (List.range n).foldl (fun s t => innerLoopStep O tw curr lr momentum t s) s0

/-- The synthetic batch generated by the teacher at (0-based) step `t`. -/
def synthAt {ι : Type} (O : GTNOracles ι) (tw : TeacherWeights) (curr : ℕ → CurrBatch)
    (lr momentum : ℝ) (s0 : InnerLoopState ι) (t : ℕ) : SynthImages :=
  (Teacher.forward tw (innerSnap O tw curr lr momentum s0 t).stats (curr t) gtnOneHot).1.1

/-- The loss gradient evaluated at step `t` of the inner loop. -/
def gradAt {ι : Type} (O : GTNOracles ι) (tw : TeacherWeights) (curr : ℕ → CurrBatch)
    (lr momentum : ℝ) (s0 : InnerLoopState ι) (t : ℕ) : ι → ℝ :=
  O.lossGrad (innerSnap O tw curr lr momentum s0 t).learner.params
    (synthAt O tw curr lr momentum s0 t)

/-- The momentum buffer after step `t` of the inner loop (0 before any step):
`buf 1 = g 0` and `buf (t+1) = momentum * buf t + g t`. -/
def bufAt {ι : Type} (O : GTNOracles ι) (tw : TeacherWeights) (curr : ℕ → CurrBatch)
    (lr momentum : ℝ) (s0 : InnerLoopState ι) : ℕ → ι → ℝ
  | 0 => fun _ => 0
  | t + 1 => fun i => momentum * bufAt O tw curr lr momentum s0 t i
      + gradAt O tw curr lr momentum s0 t i

/-- The mutable training state owned by the outer loop: teacher parameters,
the learnable curriculum, and the teacher's batch-norm buffers. -/
structure TrainState where
  teacher : TeacherWeights
  curriculum : ℕ → CurrBatch
  stats : TeacherStats

/-- Everything one outer iteration computes before (possibly) updating the
teacher: the full differentiable snapshot trajectory, the final snapshot, and
the real-data loss and accuracies evaluated AFTER the inner loop completes. -/
structure OuterIterResult (ι : Type) where
  trajectory : List (InnerLoopState ι)
  finalState : InnerLoopState ι
  realLoss : ℝ
  trainAccuracy : ℝ
  valAccuracy : ℝ

/-- One outer iteration: read the shared learner learning rate and momentum
from `teacher.learner_optim_params` (fixed for the whole iteration), run the
inner loop from a freshly sampled student, then evaluate the final snapshot on
the real-data batch.  The real data is consumed only here, after the last
inner step. -/
def outerIteration {ι : Type} (O : GTNOracles ι) (st : TrainState) (li : InnerState ι)
    (rd : RealBatch) : OuterIterResult ι :=
  let lr := st.teacher.learner_optim_params 0
  let momentum := st.teacher.learner_optim_params 1
  let s0 : InnerLoopState ι := ⟨li, st.stats, []⟩
  let fin := innerLoopRunN O st.teacher st.curriculum lr momentum s0 inner_loop_iterations
  ⟨(List.range (inner_loop_iterations + 1)).map
      (innerSnap O st.teacher st.curriculum lr momentum s0),
   fin, O.realLoss fin.learner.params rd, O.realAcc fin.learner.params rd,
   O.valAcc fin.learner.params⟩

/-- Outcome of the whole outer training loop: the final teacher parameters and
curriculum, the number of teacher optimizer steps that were applied, and the
final test accuracy (`some` exactly when the budget-reached branch ran). -/
structure GTNRunResult where
  teacher : TeacherWeights
  curriculum : ℕ → CurrBatch
  updatesApplied : ℕ
  finalTestAccuracy : Option ℝ

/-- The outer `for it, real_data in enumerate(train_loader)` loop.  At
`it == outer_loop_iterations - 1` the final test accuracy is computed and the
loop breaks BEFORE `loss.backward()` and `optimizer_teacher.step()`, so no
teacher update happens on that iteration; on every other iteration the
backward pass and the Adam step (the `metaUpdate` collaborator) run and the
iteration counter advances.  An exhausted loader ends the loop with no test
accuracy reported. -/
def outerLoop {ι : Type} (O : GTNOracles ι) (inits : ℕ → InnerState ι) :
    List RealBatch → ℕ → ℕ → TrainState → GTNRunResult
  | [], _, updates, st => ⟨st.teacher, st.curriculum, updates, none⟩
  | rd :: rest, it, updates, st =>
    let res := outerIteration O st (inits it) rd
    if it = outer_loop_iterations - 1 then
      ⟨st.teacher, st.curriculum, updates, some (O.testAcc res.finalState.learner.params)⟩
    else
      let upd := O.metaUpdate st.teacher st.curriculum res.trajectory rd
      outerLoop O inits rest (it + 1) (updates + 1) ⟨upd.1, upd.2, res.finalState.stats⟩

/-! ### Architecture search (GTN notebook, "Simple MNIST NAS" cell) -/

/-- The state threaded through the NAS loop: the (frozen) teacher and
curriculum, the teacher's batch-norm buffers, and the running
`best_accuracy` / `filter_counts` pair.  `filter_counts` is `none` while the
Python name is still unbound. -/
structure NASState where
  teacher : TeacherWeights
  stats : TeacherStats
  curriculum : ℕ → CurrBatch
  best_accuracy : ℝ
  filter_counts : Option (ℕ × ℕ)

/-- The random draws of one NAS trial: the sampled
`conv1_filters = np.random.randint(1, 64)` and
`conv2_filters = np.random.randint(1, 128)` widths, and the freshly
initialized learner. -/
structure NASTrial (ι : Type) where
  conv1_filters : ℕ
  conv2_filters : ℕ
  learnerInit : InnerState ι

/-- One NAS trial: train the sampled learner with the inner loop on
teacher-generated data (same `learner_optim_params`), measure validation
accuracy, and retain the architecture iff `accuracy > best_accuracy`.  The
second component is the `(filters, accuracy)` record the trial prints. -/
def nasTrialStep {ι : Type} (O : GTNOracles ι) (st : NASState) (tr : NASTrial ι) :
    NASState × ((ℕ × ℕ) × ℝ) :=
  let lr := st.teacher.learner_optim_params 0
  let momentum := st.teacher.learner_optim_params 1
  let fin := innerLoopRunN O st.teacher st.curriculum lr momentum
    ⟨tr.learnerInit, st.stats, []⟩ inner_loop_iterations
  let accuracy := O.valAcc fin.learner.params
  (⟨st.teacher, fin.stats, st.curriculum,
    if st.best_accuracy < accuracy then accuracy else st.best_accuracy,
    if st.best_accuracy < accuracy then some (tr.conv1_filters, tr.conv2_filters)
    else st.filter_counts⟩,
   ((tr.conv1_filters, tr.conv2_filters), accuracy))

/-- One iteration of the NAS `for i in range(num_architectures)` loop on the
accumulated (state, printed records) pair. -/
def nasFoldStep {ι : Type} (O : GTNOracles ι) (acc : NASState × List ((ℕ × ℕ) × ℝ))
    (tr : NASTrial ι) : NASState × List ((ℕ × ℕ) × ℝ) :=
  ((nasTrialStep O acc.1 tr).1, acc.2 ++ [(nasTrialStep O acc.1 tr).2])

/-- The NAS loop: starting from `best_accuracy = 0` and unbound
`filter_counts`, fold the trial body over the sampled architectures,
accumulating the printed `(filters, accuracy)` records. -/
def nasRun {ι : Type} (O : GTNOracles ι) (tw : TeacherWeights) (ts : TeacherStats)
    (curr : ℕ → CurrBatch) (trials : List (NASTrial ι)) :
    NASState × List ((ℕ × ℕ) × ℝ) :=
  trials.foldl (nasFoldStep O) (⟨tw, ts, curr, 0, none⟩, [])

/-- Invariant of the NAS fold: either `filter_counts` is still unbound,
`best_accuracy` is still 0 and every record so far has accuracy ≤ 0, or
`filter_counts` names a record whose accuracy equals `best_accuracy` and
dominates every record so far. -/
def NASInv (p : NASState × List ((ℕ × ℕ) × ℝ)) : Prop :=
  (p.1.filter_counts = none ∧ p.1.best_accuracy = 0 ∧ ∀ r ∈ p.2, r.2 ≤ 0)
  ∨ (∃ rec ∈ p.2, p.1.filter_counts = some rec.1 ∧ p.1.best_accuracy = rec.2
      ∧ ∀ r ∈ p.2, r.2 ≤ rec.2)

/-! ### Concrete instances used by witnesses and counterexamples -/

/-- An all-zero teacher weight assignment. -/
def twZero : TeacherWeights :=
  ⟨fun _ _ => 0, fun _ => 0, fun _ => 0, fun _ => 0, fun _ _ => 0, fun _ => 0,
   fun _ => 0, fun _ => 0, fun _ _ _ _ => 0, fun _ => 0, fun _ => 0, fun _ => 0,
   fun _ _ _ _ => 0, fun _ => 0, fun _ => 0, fun _ => 0, fun _ => 0⟩

/-- All-zero teacher batch-norm buffers. -/
def tsZero : TeacherStats :=
  ⟨fun _ => 0, fun _ => 0, fun _ => 0, fun _ => 0,
   fun _ => 0, fun _ => 0, fun _ => 0, fun _ => 0⟩

/-- An all-zero curriculum. -/
def currZero : ℕ → CurrBatch := fun _ _ _ => 0

/-- An all-zero real batch. -/
def rbZero : RealBatch := ⟨fun _ _ _ _ => 0, fun _ => ⟨0, by decide⟩⟩

/-- Oracles over a one-parameter student whose every answer is zero; in
particular the loss gradient vanishes identically and the teacher update is
the identity. -/
def oraclesZero : GTNOracles Unit :=
  ⟨fun _ _ _ => 0, fun _ _ => 0, fun _ _ => 0, fun _ _ => 0, fun _ => 0, fun _ => 0,
   fun tw c _ _ => (tw, c)⟩

/-- Oracles equal to `oraclesZero` except that the loss gradient is constantly
one. -/
def oraclesGradOne : GTNOracles Unit :=
  ⟨fun _ _ _ => 1, fun _ _ => 0, fun _ _ => 0, fun _ _ => 0, fun _ => 0, fun _ => 0,
   fun tw c _ _ => (tw, c)⟩

/-- Oracles equal to `oraclesZero` except that every validation accuracy is 1. -/
def oraclesValOne : GTNOracles Unit :=
  ⟨fun _ _ _ => 0, fun _ _ => 0, fun _ _ => 0, fun _ _ => 0, fun _ => 1, fun _ => 0,
   fun tw c _ _ => (tw, c)⟩

/-- A freshly initialized one-parameter student: zero parameters, no momentum
buffer yet. -/
def liZero : InnerState Unit := ⟨fun _ => 0, none⟩

/-- Inner-loop start state built from `liZero`. -/
def s0Zero : InnerLoopState Unit := ⟨liZero, tsZero, []⟩

/-- A fixed train state built from the zero teacher. -/
def trainStateZero : TrainState := ⟨twZero, currZero, tsZero⟩

/-- A constant stream of freshly initialized students. -/
def initsZero : ℕ → InnerState Unit := fun _ => liZero

/-- A NAS trial with widths (1, 1) (inside the sampled ranges [1,64) and
[1,128)) and a zero-initialized learner. -/
def nasTrialOne : NASTrial Unit := ⟨1, 1, liZero⟩

/-- Ten identical NAS trials. -/
def nasTrials10 : List (NASTrial Unit) := List.replicate 10 nasTrialOne

/-- A NAS trial with widths (3, 5) and a zero-initialized learner. -/
def nasTrial35 : NASTrial Unit := ⟨3, 5, liZero⟩

/-- All-zero learner weights at widths (1, 1). -/
def lwZero : LearnerWeights 1 1 :=
  ⟨fun _ _ _ _ => 0, fun _ => 0, fun _ => 0, fun _ => 0,
   fun _ _ _ _ => 0, fun _ => 0, fun _ => 0, fun _ => 0,
   fun _ _ => 0, fun _ => 0, fun _ => 0, fun _ => 0⟩

/-- An all-zero 28×28 single-channel input batch of size 1. -/
def imgZero : Tensor4 1 1 img_size img_size := fun _ _ _ _ => 0

/-- A ModulatedConv2d instance with zero weights, w_dim 2, one input and one
output channel, kernel 3, padding 1. -/
def mcZero : ModulatedConv2d 2 1 1 3 := ⟨fun _ _ _ _ => 0, fun _ _ => 0, fun _ => 0, 1⟩

/-- A ModulatedConv2d instance with zero weights, w_dim 2, one input channel
but TWO output channels, kernel 3, padding 1. -/
def mc12 : ModulatedConv2d 2 1 2 3 := ⟨fun _ _ _ _ => 0, fun _ _ => 0, fun _ => 0, 1⟩

/-- A 4×4 one-channel image batch of size 1, all zero. -/
def mcImgZero : Tensor4 1 1 4 4 := fun _ _ _ _ => 0

/-- A zero style batch of size 1 for `mcZero`. -/
def mcWZero : Tensor2 1 2 := fun _ _ => 0

/-! ### Helper lemmas -/

/-- The function `tanh` is strictly below 1. -/
theorem tanh_lt_one (v : ℝ) : Real.tanh v < 1 := by
  rw [Real.tanh_eq_sinh_div_cosh]
  have hc := Real.cosh_pos v
  rw [div_lt_one hc, Real.sinh_eq, Real.cosh_eq]
  have h2 := Real.exp_pos (-v)
  linarith

/-- The function `tanh` is strictly above -1. -/
theorem neg_one_lt_tanh (v : ℝ) : -1 < Real.tanh v := by
  rw [Real.tanh_eq_sinh_div_cosh]
  have hc := Real.cosh_pos v
  rw [lt_div_iff₀ hc, Real.sinh_eq, Real.cosh_eq]
  have h1 := Real.exp_pos v
  have h2 := Real.exp_pos (-v)
  linarith

/-- The Teacher's output normalization maps any pre-tanh value strictly
between the two bound constants. -/
theorem teacherNormalize_bounds (v : ℝ) :
    teacher_out_lo < (Real.tanh v + 1 - 2 * mnist_mean) / (2 * mnist_std)
    ∧ (Real.tanh v + 1 - 2 * mnist_mean) / (2 * mnist_std) < teacher_out_hi := by
  have hs : (0 : ℝ) < 2 * mnist_std := by norm_num [mnist_std]
  constructor
  · unfold teacher_out_lo
    rw [div_lt_div_iff_of_pos_right hs]
    have := neg_one_lt_tanh v
    linarith
  · unfold teacher_out_hi
    rw [div_lt_div_iff_of_pos_right hs]
    have := tanh_lt_one v
    linarith

/-! ### Claim C4 -/

/-- C4: in `ModulatedConv2d`, for every `conv_weight` tensor and every
style-scale vector, the demodulation denominator `sum(w' ** 2) + eps` is
strictly positive for every output channel, so the square root and the
division producing `w''` are always well defined; `eps` is the fixed constant
`1e-6`. -/
theorem demod_denominator_strictly_positive {wd ic oc k : ℕ}
    (m : ModulatedConv2d wd ic oc k) (style_scale : Tensor1 ic) (o : Fin oc) :
    0 < demodDenom m style_scale o ∧ ModulatedConv2d.eps = 1e-6 := by
  refine ⟨?_, rfl⟩
  have h : 0 ≤ ∑ c, ∑ a, ∑ d, (m.conv_weight o c a d * style_scale c) ^ 2 :=
    Finset.sum_nonneg fun c _ => Finset.sum_nonneg fun a _ =>
      Finset.sum_nonneg fun d _ => sq_nonneg _
  have he : (0 : ℝ) < ModulatedConv2d.eps := by norm_num [ModulatedConv2d.eps]
  unfold demodDenom
  linarith

/-! ### Claim C8 -/

/-- C8: `Teacher.forward`'s returned batch (and target) is a pure function of
the teacher's weights and its inputs: the embedding performs no sampling, and
the output component is literally independent of the mutable batch-norm
running statistics, the only other state a forward call touches — so two
evaluations with identical weight values and identical (noise, one-hot label)
inputs return identical image batches. -/
theorem teacher_forward_pure {b : ℕ} (tw : TeacherWeights) (ts1 ts2 : TeacherStats)
    (x : Tensor2 b noise_size) (target : Tensor2 b num_classes) :
    (Teacher.forward tw ts1 x target).1 = (Teacher.forward tw ts2 x target).1 := rfl

/-! ### Claim C9 -/

/-- C9: for every input batch of `b` noise vectors with `b` one-hot labels,
`Teacher.forward` returns a single-channel image batch of shape
(b, 1, 28, 28) — expressed by the index types `Fin b`, `Fin 1`,
`Fin img_size`, `Fin img_size` of the returned tensor — and every output
element lies strictly between `(0 - 2*mnist_mean)/(2*mnist_std)` and
`(2 - 2*mnist_mean)/(2*mnist_std)`. -/
theorem teacher_output_shape_and_range {b : ℕ} (tw : TeacherWeights) (ts : TeacherStats)
    (x : Tensor2 b noise_size) (target : Tensor2 b num_classes)
    (k : Fin b) (ci : Fin 1) (y xx : Fin img_size) :
    teacher_out_lo < (Teacher.forward tw ts x target).1.1 k ci y xx
    ∧ (Teacher.forward tw ts x target).1.1 k ci y xx < teacher_out_hi :=
  teacherNormalize_bounds _

/-! ### Claim C7 -/

/-- The NAS fold never writes the teacher or curriculum components. -/
theorem nasFold_frame {ι : Type} (O : GTNOracles ι) :
    ∀ (trials : List (NASTrial ι)) (st : NASState) (recs : List ((ℕ × ℕ) × ℝ)),
      (trials.foldl (nasFoldStep O) (st, recs)).1.teacher = st.teacher
      ∧ (trials.foldl (nasFoldStep O) (st, recs)).1.curriculum = st.curriculum := by
  intro trials
  induction trials with
  | nil => intro st recs; exact ⟨rfl, rfl⟩
  | cons tr rest ih =>
    intro st recs
    rw [List.foldl_cons]
    have h := ih (nasTrialStep O st tr).1 (recs ++ [(nasTrialStep O st tr).2])
    exact ⟨h.1.trans rfl, h.2.trans rfl⟩

/-- C7: the architecture-search loop leaves the teacher's parameter tensors
(including `learner_optim_params`, a field of `TeacherWeights`) and the
curriculum unchanged: after any list of trials they equal their initial
values; only the batch-norm buffers and the best-so-far bookkeeping change. -/
theorem nas_preserves_teacher_and_curriculum {ι : Type} (O : GTNOracles ι)
    (tw : TeacherWeights) (ts : TeacherStats) (curr : ℕ → CurrBatch)
    (trials : List (NASTrial ι)) :
    (nasRun O tw ts curr trials).1.teacher = tw
    ∧ (nasRun O tw ts curr trials).1.curriculum = curr :=
  nasFold_frame O trials ⟨tw, ts, curr, 0, none⟩ []

/-! ### Claim C10 -/

/-- C10: for every choice of positive convolutional widths, the Learner's
fully connected layer input size `conv2_filters * c2_size * c2_size` exactly
matches the flattened size actually produced by the two conv/pool stages on a
28×28 single-channel input (`learnerFlatWidth`), so `Learner.forward` passes
the runtime dimension check and always returns per-class scores of shape
(b, num_classes). -/
theorem learner_fc_dimension_match {b n1 n2 : ℕ} (hn1 : 0 < n1) (hn2 : 0 < n2)
    (lw : LearnerWeights n1 n2) (x : Tensor4 b 1 img_size img_size) :
    n2 * c2_size * c2_size = learnerFlatWidth n2
    ∧ ∃ scores : Tensor2 b num_classes, Learner.forward lw x = some scores := by
  constructor
  · simp [c2_size, c1_size, learnerFlatWidth, poolOutSize, convOutSize, img_size]
  · unfold Learner.forward linearCheckedB
    split
    · exact ⟨_, rfl⟩
    · rename_i hcond
      exact absurd (by simp [c2_size, c1_size, poolOutSize, convOutSize, img_size]) hcond

/-- Witness for C10 at widths (1, 1) on a concrete zero input. -/
theorem learner_fc_dimension_match_witness :
    0 < 1 ∧ 0 < 1
    ∧ (1 * c2_size * c2_size = learnerFlatWidth 1
       ∧ ∃ scores : Tensor2 1 num_classes, Learner.forward lwZero imgZero = some scores) :=
  ⟨Nat.one_pos, Nat.one_pos,
   learner_fc_dimension_match Nat.one_pos Nat.one_pos lwZero imgZero⟩

/-! ### Claim C5 -/

/-- Unfolding invariant of the outer loop: started at any iteration index
below the budget with enough batches left, the loop always reaches the
budget branch, reporting a test accuracy and applying exactly one teacher
update per non-final iteration. -/
theorem outerLoop_budget_spec {ι : Type} (O : GTNOracles ι) (inits : ℕ → InnerState ι) :
    ∀ (l : List RealBatch) (it updates : ℕ) (st : TrainState),
      it < outer_loop_iterations → outer_loop_iterations - it ≤ l.length →
      (outerLoop O inits l it updates st).finalTestAccuracy.isSome
      ∧ (outerLoop O inits l it updates st).updatesApplied
          = updates + (outer_loop_iterations - 1 - it) := by
  intro l
  induction l with
  | nil =>
    intro it updates st h1 h2
    simp only [List.length_nil] at h2
    omega
  | cons rd rest ih =>
    intro it updates st h1 h2
    simp only [outerLoop]
    by_cases hit : it = outer_loop_iterations - 1
    · rw [if_pos hit]
      refine ⟨rfl, ?_⟩
      show updates = updates + (outer_loop_iterations - 1 - it)
      omega
    · rw [if_neg hit]
      have h3 : it + 1 < outer_loop_iterations := by omega
      have h4 : outer_loop_iterations - (it + 1) ≤ rest.length := by
        simp only [List.length_cons] at h2; omega
      refine ⟨(ih _ _ _ h3 h4).1, ?_⟩
      rw [(ih _ _ _ h3 h4).2]
      omega

/-- C5: when the outer iteration counter reaches the configured budget
(`it = outer_loop_iterations - 1`), the backward pass and the teacher
optimizer update for that iteration are skipped (exactly
`outer_loop_iterations - 1` updates are applied in total) and the final
held-out test accuracy is computed and reported (`finalTestAccuracy` is
`some`); this is a normal return of the total loop function, not an error. -/
theorem outer_budget_reached_skips_update_reports_test {ι : Type} (O : GTNOracles ι)
    (inits : ℕ → InnerState ι) (batches : List RealBatch) (st : TrainState)
    (h : outer_loop_iterations ≤ batches.length) :
    (outerLoop O inits batches 0 0 st).finalTestAccuracy.isSome
    ∧ (outerLoop O inits batches 0 0 st).updatesApplied = outer_loop_iterations - 1 := by
  have h5 := outerLoop_budget_spec O inits batches 0 0 st (by decide) (by omega)
  refine ⟨h5.1, ?_⟩
  rw [h5.2]
  omega

/-- Witness for C5: a concrete run over five zero batches with the zero
teacher and zero oracles. -/
theorem outer_budget_reached_witness :
    outer_loop_iterations ≤ (List.replicate 5 rbZero).length
    ∧ ((outerLoop oraclesZero initsZero (List.replicate 5 rbZero) 0 0
          trainStateZero).finalTestAccuracy.isSome
       ∧ (outerLoop oraclesZero initsZero (List.replicate 5 rbZero) 0 0
            trainStateZero).updatesApplied = outer_loop_iterations - 1) := by
  have hlen : outer_loop_iterations ≤ (List.replicate 5 rbZero).length := by
    simp [outer_loop_iterations]
  exact ⟨hlen, outer_budget_reached_skips_update_reports_test oraclesZero initsZero
    (List.replicate 5 rbZero) trainStateZero hlen⟩

/-! ### Claim C1 -/

/-- C1: for every inner-loop step `t` with `1 ≤ t ≤ inner_loop_iterations`,
the student snapshot produced at step `t` is `studentUpdate` — a function of
only the shared learning-rate and momentum scalars (the same values at every
step), the synthetic batch the teacher generates at that step, and the
snapshot at step `t-1`; and the whole trajectory recorded by one outer
iteration is identical for any two real-data batches, which are consumed
only after the inner loop's last step. -/
theorem inner_snapshot_markov_and_real_data_free {ι : Type} (O : GTNOracles ι)
    (tw : TeacherWeights) (curr : ℕ → CurrBatch) (lr momentum : ℝ)
    (s0 : InnerLoopState ι) (st : TrainState) (li : InnerState ι)
    (rdA rdB : RealBatch) (t : ℕ) (h1 : 1 ≤ t) (h2 : t ≤ inner_loop_iterations) :
    (innerSnap O tw curr lr momentum s0 t).learner
      = studentUpdate O lr momentum (synthAt O tw curr lr momentum s0 (t - 1))
          ((innerSnap O tw curr lr momentum s0 (t - 1)).learner)
    ∧ (outerIteration O st li rdA).trajectory = (outerIteration O st li rdB).trajectory := by
  constructor
  · obtain ⟨u, rfl⟩ : ∃ u, t = u + 1 := ⟨t - 1, by omega⟩
    simp only [Nat.add_sub_cancel]
    rfl
  · rfl

/-- Witness for C1 at step t = 1 on concrete zero data. -/
theorem inner_snapshot_markov_witness :
    1 ≤ 1 ∧ 1 ≤ inner_loop_iterations
    ∧ ((innerSnap oraclesZero twZero currZero 1 0 s0Zero 1).learner
        = studentUpdate oraclesZero 1 0 (synthAt oraclesZero twZero currZero 1 0 s0Zero 0)
            ((innerSnap oraclesZero twZero currZero 1 0 s0Zero 0).learner)
       ∧ (outerIteration oraclesZero trainStateZero liZero rbZero).trajectory
          = (outerIteration oraclesZero trainStateZero liZero rbZero).trajectory) :=
  ⟨Nat.le_refl 1, by decide,
   inner_snapshot_markov_and_real_data_free oraclesZero twZero currZero 1 0 s0Zero
     trainStateZero liZero rbZero rbZero 1 (Nat.le_refl 1) (by decide)⟩

/-! ### Claim C3 -/

/-- The source's fold over `range(n)` computes the `n`-th snapshot. -/
theorem innerLoopRunN_eq_innerSnap {ι : Type} (O : GTNOracles ι) (tw : TeacherWeights)
    (curr : ℕ → CurrBatch) (lr momentum : ℝ) (s0 : InnerLoopState ι) :
    ∀ n, innerLoopRunN O tw curr lr momentum s0 n = innerSnap O tw curr lr momentum s0 n := by
  intro n
  induction n with
  | zero => rfl
  | succ n ih =>
    unfold innerLoopRunN
    rw [List.range_succ, List.foldl_append, List.foldl_cons, List.foldl_nil]
    exact congrArg (innerLoopStep O tw curr lr momentum n) ih

/-- Closed form of the inner loop: after `t + 1` steps the momentum buffer is
`bufAt (t+1)` and the parameters are the initial ones minus `lr` times the
sum of all momentum buffers so far (requires a fresh optimizer: no initial
momentum buffer). -/
theorem innerSnap_velocity_params {ι : Type} (O : GTNOracles ι) (tw : TeacherWeights)
    (curr : ℕ → CurrBatch) (lr momentum : ℝ) (s0 : InnerLoopState ι)
    (h0 : s0.learner.velocity = none) (t : ℕ) :
    (innerSnap O tw curr lr momentum s0 (t + 1)).learner.velocity
      = some (bufAt O tw curr lr momentum s0 (t + 1))
    ∧ (innerSnap O tw curr lr momentum s0 (t + 1)).learner.params
      = fun i => s0.learner.params i
          - lr * ∑ u ∈ Finset.range (t + 1), bufAt O tw curr lr momentum s0 (u + 1) i := by
  induction t with
  | zero =>
    have h2 : (innerSnap O tw curr lr momentum s0 1).learner
        = sgdStep lr momentum (gradAt O tw curr lr momentum s0 0) s0.learner := rfl
    constructor
    · rw [h2]
      simp only [sgdStep, h0]
      congr 1
      funext i
      simp [bufAt]
    · rw [h2]
      simp only [sgdStep, h0]
      funext i
      simp [bufAt, Finset.sum_range_one]
  | succ t ih =>
    have h2 : (innerSnap O tw curr lr momentum s0 (t + 1 + 1)).learner
        = sgdStep lr momentum (gradAt O tw curr lr momentum s0 (t + 1))
            (innerSnap O tw curr lr momentum s0 (t + 1)).learner := rfl
    constructor
    · rw [h2]
      simp only [sgdStep, ih.1]
      rfl
    · rw [h2]
      simp only [sgdStep, ih.1]
      funext i
      simp only [ih.2]
      conv_rhs => rw [Finset.sum_range_succ]
      have hb : bufAt O tw curr lr momentum s0 (t + 1 + 1) i
          = momentum * bufAt O tw curr lr momentum s0 (t + 1) i
            + gradAt O tw curr lr momentum s0 (t + 1) i := rfl
      rw [hb]
      ring

/-- C3 (amended): the inner-loop trainer leaves the student parameters
unchanged when the learning rate is exactly zero (any momentum, any number of
steps); and for a fresh optimizer the final snapshot differs from the initial
one whenever the learning rate is nonzero, at least one step executes, AND the
momentum-accumulated gradients summed over the executed steps are nonzero in
some coordinate (without that last condition the update `-lr * buf` can
vanish, e.g. for an identically zero loss gradient). -/
theorem inner_loop_final_snapshot_amended {ι : Type} (O : GTNOracles ι)
    (tw : TeacherWeights) (curr : ℕ → CurrBatch) (lr momentum : ℝ)
    (s0 : InnerLoopState ι) (h0 : s0.learner.velocity = none) (n : ℕ) :
    (lr = 0 →
      (innerLoopRunN O tw curr lr momentum s0 n).learner.params = s0.learner.params)
    ∧ (lr ≠ 0 → 1 ≤ n →
        (∃ i, ∑ u ∈ Finset.range n, bufAt O tw curr lr momentum s0 (u + 1) i ≠ 0) →
        (innerLoopRunN O tw curr lr momentum s0 n).learner.params ≠ s0.learner.params) := by
  constructor
  · rintro rfl
    rw [innerLoopRunN_eq_innerSnap]
    induction n with
    | zero => rfl
    | succ n ih =>
      calc (innerSnap O tw curr 0 momentum s0 (n + 1)).learner.params
          = (innerSnap O tw curr 0 momentum s0 n).learner.params := by
            funext i
            show (sgdStep 0 momentum (gradAt O tw curr 0 momentum s0 n)
                (innerSnap O tw curr 0 momentum s0 n).learner).params i = _
            simp [sgdStep]
        _ = s0.learner.params := ih
  · intro hlr hn hS heq
    obtain ⟨i0, hS0⟩ := hS
    obtain ⟨t, rfl⟩ : ∃ t, n = t + 1 := ⟨n - 1, by omega⟩
    have hQ := innerSnap_velocity_params O tw curr lr momentum s0 h0 t
    rw [innerLoopRunN_eq_innerSnap, hQ.2] at heq
    have h3 : s0.learner.params i0
        - lr * ∑ u ∈ Finset.range (t + 1), bufAt O tw curr lr momentum s0 (u + 1) i0
        = s0.learner.params i0 := congrFun heq i0
    have h4 : lr * ∑ u ∈ Finset.range (t + 1), bufAt O tw curr lr momentum s0 (u + 1) i0
        = 0 := sub_eq_self.mp h3
    rcases mul_eq_zero.mp h4 with h | h
    · exact hlr h
    · exact hS0 h

/-- With the identically-zero loss-gradient oracle, every inner-loop snapshot
keeps the initial parameters, whatever the (nonzero) learning rate. -/
theorem innerSnap_zero_grad (t : ℕ) :
    (innerSnap oraclesZero twZero currZero 1 (1 / 2) s0Zero t).learner.params
      = s0Zero.learner.params
    ∧ ((innerSnap oraclesZero twZero currZero 1 (1 / 2) s0Zero t).learner.velocity = none
       ∨ (innerSnap oraclesZero twZero currZero 1 (1 / 2) s0Zero t).learner.velocity
          = some (fun _ => 0)) := by
  induction t with
  | zero => exact ⟨rfl, Or.inl rfl⟩
  | succ t ih =>
    have h2 : (innerSnap oraclesZero twZero currZero 1 (1 / 2) s0Zero (t + 1)).learner
        = sgdStep 1 (1 / 2) (fun _ => 0)
            (innerSnap oraclesZero twZero currZero 1 (1 / 2) s0Zero t).learner := rfl
    have hp := ih.1
    constructor
    · rw [h2]
      funext i
      rcases ih.2 with hv | hv
      · simp only [sgdStep, hv]
        rw [congrFun hp i]
        simp
      · simp only [sgdStep, hv]
        rw [congrFun hp i]
        simp
    · rw [h2]
      rcases ih.2 with hv | hv
      · right
        simp only [sgdStep, hv]
      · right
        simp only [sgdStep, hv]
        congr 1
        funext i
        simp

/-- Counterexample to C3 as stated: with the (legitimate) identically-zero
loss gradient supplied by the autodiff collaborator, a learning rate of 1
(nonzero) and all 32 steps executing, the final snapshot's parameters EQUAL
the initial snapshot's — the claim asserted they must differ whenever the
learning rate is nonzero and at least one step executes. -/
theorem inner_loop_final_snapshot_claim_counterexample :
    (innerLoopRunN oraclesZero twZero currZero 1 (1 / 2) s0Zero
        inner_loop_iterations).learner.params = s0Zero.learner.params
    ∧ (1 : ℝ) ≠ 0 ∧ 1 ≤ inner_loop_iterations :=
  ⟨by
    rw [innerLoopRunN_eq_innerSnap]
    exact (innerSnap_zero_grad inner_loop_iterations).1,
   one_ne_zero, by decide⟩

/-- Witness for C3 (amended): with a constant loss gradient of 1, learning
rate 1 and momentum 0, one step moves the parameters away from the initial
snapshot. -/
theorem inner_loop_final_snapshot_amended_witness :
    s0Zero.learner.velocity = none
    ∧ (innerLoopRunN oraclesGradOne twZero currZero 1 0 s0Zero 1).learner.params
        ≠ s0Zero.learner.params := by
  refine ⟨rfl, ?_⟩
  refine (inner_loop_final_snapshot_amended oraclesGradOne twZero currZero 1 0 s0Zero
      rfl 1).2 one_ne_zero (Nat.le_refl 1) ?_
  refine ⟨(), ?_⟩
  have hb : bufAt oraclesGradOne twZero currZero 1 0 s0Zero 1 () = 0 * 0 + 1 := rfl
  rw [Finset.sum_range_one, hb]
  norm_num

/-! ### Claim C2 -/

/-- Reading a merged view at the merged index recovers the original entry. -/
theorem viewMerge_mk {α : Type} {m n : ℕ} (f : Fin m → Fin n → α) (i : Fin m) (j : Fin n)
    (pf : i.1 * n + j.1 < m * n) :
    viewMerge f ⟨i.1 * n + j.1, pf⟩ = f i j := by
  have hn : 0 < n := Nat.lt_of_le_of_lt (Nat.zero_le j.1) j.2
  have hdiv : (i.1 * n + j.1) / n = i.1 := by
    rw [Nat.add_comm, Nat.add_mul_div_right _ _ hn, Nat.div_eq_of_lt j.2, Nat.zero_add]
  have hmod : (i.1 * n + j.1) % n = j.1 := by
    rw [Nat.mul_comm, Nat.mul_add_mod, Nat.mod_eq_of_lt j.2]
  simp only [viewMerge]
  exact congrArg₂ f (Fin.ext hdiv) (Fin.ext hmod)

/-- Reading the merged image view at the channel index computed by the grouped
convolution recovers the per-sample channel. -/
theorem viewMerge_group_idx {α : Type} {g icg ocg : ℕ} (I : Fin g → Fin icg → α)
    (i : Fin g) (o : Fin ocg) (c : Fin icg)
    (pf : (i.1 * ocg + o.1) / ocg * icg + c.1 < g * icg) :
    viewMerge I ⟨(i.1 * ocg + o.1) / ocg * icg + c.1, pf⟩ = I i c := by
  have hoc : 0 < ocg := Nat.lt_of_le_of_lt (Nat.zero_le o.1) o.2
  have hic : 0 < icg := Nat.lt_of_le_of_lt (Nat.zero_le c.1) c.2
  have hdiv : (i.1 * ocg + o.1) / ocg = i.1 := by
    rw [Nat.add_comm, Nat.add_mul_div_right _ _ hoc, Nat.div_eq_of_lt o.2, Nat.zero_add]
  have hdiv2 : ((i.1 * ocg + o.1) / ocg * icg + c.1) / icg = i.1 := by
    rw [hdiv, Nat.add_comm, Nat.add_mul_div_right _ _ hic, Nat.div_eq_of_lt c.2,
      Nat.zero_add]
  have hmod2 : ((i.1 * ocg + o.1) / ocg * icg + c.1) % icg = c.1 := by
    rw [hdiv, Nat.mul_comm, Nat.mul_add_mod, Nat.mod_eq_of_lt c.2]
  simp only [viewMerge]
  exact congrArg₂ I (Fin.ext hdiv2) (Fin.ext hmod2)

/-- A grouped convolution of merged views computes, at the split output index,
exactly the per-sample convolution. -/
theorem conv2dGrouped_viewMerge {g icg ocg k h w : ℕ} (p : ℕ)
    (W : Fin g → Fin ocg → Fin icg → Fin k → Fin k → ℝ)
    (I : Fin g → Fin icg → Fin h → Fin w → ℝ) (i : Fin g) (o : Fin ocg)
    (y : Fin (convOutSize h k p)) (x : Fin (convOutSize w k p)) :
    viewSplit (conv2dGrouped p (viewMerge W) (viewMerge I)) i o y x
      = conv2dOne p (W i) (I i) o y x := by
  simp only [viewSplit, conv2dGrouped, conv2dOne]
  refine Finset.sum_congr rfl fun c _ => Finset.sum_congr rfl fun a _ =>
    Finset.sum_congr rfl fun d _ => ?_
  rw [viewMerge_mk W i o, viewMerge_group_idx I i o c]

/-- Counterexample to C2 as stated: for a layer with `in_channels = 1` and
`out_channels = 2` (kernel 3, padding 1) at batch size 1,
`forward_efficient`'s filter reshape
`w_prime_prime.view(batchsize * out_channels, in_channels, k, k)` — with the
source's `out_channels = w_prime_prime.shape[2]`, i.e. the in-channel count —
is illegal (18 elements viewed as 9) and the call raises (modelled `none`)
instead of returning `forward`'s output tensor. -/
theorem modulatedConv_efficient_reshape_counterexample :
    ModulatedConv2d.forward_efficient mc12 mcImgZero mcWZero = none ∧ (1 : ℕ) ≤ 1 :=
  ⟨rfl, Nat.le_refl 1⟩

/-- C2 (amended): whenever the layer has `out_channels = in_channels` and the
convolution is size-preserving (conv output spatial size equals the input's,
as with the source's kernel 3 / padding 1 instantiation), for every batch
size b ≥ 1 `ModulatedConv2d.forward_efficient` succeeds and returns, under
exact real arithmetic, elementwise exactly the tensor
`ModulatedConv2d.forward` computes; in every other case its reshapes raise
instead of producing a tensor. -/
theorem modulatedConv_forward_eq_forward_efficient {wd ic oc k b h w : ℕ}
    (m : ModulatedConv2d wd ic oc k) (image : Tensor4 b ic h w) (wv : Tensor2 b wd)
    (hb : 1 ≤ b) (h1 : oc = ic)
    (h2 : convOutSize h k m.padding = h) (h3 : convOutSize w k m.padding = w) :
    ∃ out : Tensor4 b ic h w,
      ModulatedConv2d.forward_efficient m image wv = some out
      ∧ ∀ (i : Fin b) (o : Fin ic) (y : Fin h) (x : Fin w),
          out i o y x
            = ModulatedConv2d.forward m image wv i (Fin.cast h1.symm o)
                (Fin.cast h2.symm y) (Fin.cast h3.symm x) := by
  simp only [ModulatedConv2d.forward_efficient]
  rw [dif_pos h1, dif_pos ⟨h2, h3⟩]
  refine ⟨_, rfl, ?_⟩
  intro i o y x
  exact conv2dGrouped_viewMerge m.padding
    (fun i' (o' : Fin ic) =>
      demodWeight m (linearB m.styleW m.styleB wv i') (Fin.cast h1.symm o'))
    image i o (Fin.cast h2.symm y) (Fin.cast h3.symm x)

/-- Witness for C2 (amended) at batch size 1 on a concrete zero layer with
equal channel counts and size-preserving padding. -/
theorem modulatedConv_forward_eq_witness :
    1 ≤ 1 ∧ (1 : ℕ) = 1 ∧ convOutSize 4 3 mcZero.padding = 4
    ∧ ∃ out : Tensor4 1 1 4 4,
        ModulatedConv2d.forward_efficient mcZero mcImgZero mcWZero = some out
        ∧ ∀ (i : Fin 1) (o : Fin 1) (y : Fin 4) (x : Fin 4),
            out i o y x = ModulatedConv2d.forward mcZero mcImgZero mcWZero i o y x :=
  ⟨Nat.le_refl 1, rfl, rfl,
   modulatedConv_forward_eq_forward_efficient mcZero mcImgZero mcWZero
     (Nat.le_refl 1) rfl rfl rfl⟩

/-! ### Claim C6 -/

/-- The best-accuracy bookkeeping of one trial as an `if` on the trial's
recorded accuracy. -/
theorem nasTrialStep_best {ι : Type} (O : GTNOracles ι) (st : NASState) (tr : NASTrial ι) :
    (nasTrialStep O st tr).1.best_accuracy
      = if st.best_accuracy < (nasTrialStep O st tr).2.2 then (nasTrialStep O st tr).2.2
        else st.best_accuracy := rfl

/-- The filter-counts bookkeeping of one trial as an `if` on the trial's
recorded accuracy. -/
theorem nasTrialStep_filter {ι : Type} (O : GTNOracles ι) (st : NASState) (tr : NASTrial ι) :
    (nasTrialStep O st tr).1.filter_counts
      = if st.best_accuracy < (nasTrialStep O st tr).2.2
        then some (tr.conv1_filters, tr.conv2_filters) else st.filter_counts := rfl

/-- The pair recorded by one trial is its sampled filter counts. -/
theorem nasTrialStep_rec_fst {ι : Type} (O : GTNOracles ι) (st : NASState)
    (tr : NASTrial ι) :
    (nasTrialStep O st tr).2.1 = (tr.conv1_filters, tr.conv2_filters) := rfl

/-- One NAS trial preserves the fold invariant. -/
theorem nasFoldStep_inv {ι : Type} (O : GTNOracles ι) (st : NASState)
    (recs : List ((ℕ × ℕ) × ℝ)) (tr : NASTrial ι) (hp : NASInv (st, recs)) :
    NASInv (nasFoldStep O (st, recs) tr) := by
  have hstep : nasFoldStep O (st, recs) tr
      = ((nasTrialStep O st tr).1, recs ++ [(nasTrialStep O st tr).2]) := rfl
  rw [hstep]
  unfold NASInv
  dsimp only
  by_cases hlt : st.best_accuracy < (nasTrialStep O st tr).2.2
  · right
    refine ⟨(nasTrialStep O st tr).2,
      List.mem_append_right _ (List.mem_singleton_self _), ?_, ?_, ?_⟩
    · rw [nasTrialStep_filter, if_pos hlt, nasTrialStep_rec_fst]
    · rw [nasTrialStep_best, if_pos hlt]
    · intro r hr
      rcases List.mem_append.mp hr with hmem | hmem
      · rcases hp with ⟨_, hb0, hall⟩ | ⟨rec0, _, _, hb, hall⟩
        · exact le_trans (hall r hmem) (le_of_lt (hb0 ▸ hlt))
        · exact le_trans (hall r hmem) (le_of_lt (hb ▸ hlt))
      · rw [List.mem_singleton.mp hmem]
  · rcases hp with ⟨hf, hb, hall⟩ | ⟨rec0, hmem0, hf, hb, hall⟩
    · left
      refine ⟨?_, ?_, ?_⟩
      · rw [nasTrialStep_filter, if_neg hlt]; exact hf
      · rw [nasTrialStep_best, if_neg hlt]; exact hb
      · intro r hr
        rcases List.mem_append.mp hr with hmem | hmem
        · exact hall r hmem
        · rw [List.mem_singleton.mp hmem]
          exact le_trans (not_lt.mp hlt) (le_of_eq hb)
    · right
      refine ⟨rec0, List.mem_append_left _ hmem0, ?_, ?_, ?_⟩
      · rw [nasTrialStep_filter, if_neg hlt]; exact hf
      · rw [nasTrialStep_best, if_neg hlt]; exact hb
      · intro r hr
        rcases List.mem_append.mp hr with hmem | hmem
        · exact hall r hmem
        · rw [List.mem_singleton.mp hmem]
          exact hb ▸ not_lt.mp hlt

/-- The NAS fold preserves the invariant. -/
theorem nasFold_inv {ι : Type} (O : GTNOracles ι) :
    ∀ (trials : List (NASTrial ι)) (p : NASState × List ((ℕ × ℕ) × ℝ)),
      NASInv p → NASInv (trials.foldl (nasFoldStep O) p) := by
  intro trials
  induction trials with
  | nil => intro p hp; exact hp
  | cons tr rest ih =>
    intro p hp
    rw [List.foldl_cons]
    exact ih _ (by obtain ⟨st, recs⟩ := p; exact nasFoldStep_inv O st recs tr hp)

/-- C6 (amended): provided at least one trial records a strictly positive
validation accuracy, the NAS loop reports a `filter_counts` pair that was
recorded (with its accuracy equal to the final `best_accuracy`) and whose
recorded validation accuracy is ≥ the recorded accuracy of every other
sampled pair; when every recorded accuracy is ≤ the initial `best_accuracy`
of 0, no pair is ever bound (`filter_counts = none`). -/
theorem nas_reports_best_when_some_positive {ι : Type} (O : GTNOracles ι)
    (tw : TeacherWeights) (ts : TeacherStats) (curr : ℕ → CurrBatch)
    (trials : List (NASTrial ι))
    (h : ∃ rec ∈ (nasRun O tw ts curr trials).2, 0 < rec.2) :
    ∃ rec ∈ (nasRun O tw ts curr trials).2,
      (nasRun O tw ts curr trials).1.filter_counts = some rec.1
      ∧ (nasRun O tw ts curr trials).1.best_accuracy = rec.2
      ∧ ∀ r ∈ (nasRun O tw ts curr trials).2, r.2 ≤ rec.2 := by
  have hinv := nasFold_inv O trials (⟨tw, ts, curr, 0, none⟩, [])
    (by
      unfold NASInv
      exact Or.inl ⟨rfl, rfl, fun r hr => absurd hr (List.not_mem_nil r)⟩)
  unfold NASInv at hinv
  rcases hinv with ⟨_, _, hall⟩ | ⟨rec, hmem, hf, hb, hall⟩
  · obtain ⟨rec, hmem, hpos⟩ := h
    exact absurd (hall rec hmem) (not_le.mpr hpos)
  · exact ⟨rec, hmem, hf, hb, hall⟩

/-- Witness for C6 (amended): one trial with widths (3, 5) and validation
accuracy 1. -/
theorem nas_reports_best_witness :
    (∃ rec ∈ (nasRun oraclesValOne twZero tsZero currZero [nasTrial35]).2, 0 < rec.2)
    ∧ ∃ rec ∈ (nasRun oraclesValOne twZero tsZero currZero [nasTrial35]).2,
        (nasRun oraclesValOne twZero tsZero currZero [nasTrial35]).1.filter_counts
          = some rec.1
        ∧ (nasRun oraclesValOne twZero tsZero currZero [nasTrial35]).1.best_accuracy
            = rec.2
        ∧ ∀ r ∈ (nasRun oraclesValOne twZero tsZero currZero [nasTrial35]).2,
            r.2 ≤ rec.2 := by
  have hrec : (nasRun oraclesValOne twZero tsZero currZero [nasTrial35]).2
      = [((3, 5), 1)] := rfl
  have h : ∃ rec ∈ (nasRun oraclesValOne twZero tsZero currZero [nasTrial35]).2,
      0 < rec.2 := by
    rw [hrec]
    exact ⟨((3, 5), 1), List.mem_singleton_self _, by norm_num⟩
  exact ⟨h, nas_reports_best_when_some_positive oraclesValOne twZero tsZero currZero
    [nasTrial35] h⟩

/-- When every trial's recorded accuracy is 0, the strict comparison with the
initial `best_accuracy = 0` never fires and `filter_counts` stays unbound. -/
theorem nasFold_zero_acc :
    ∀ (trials : List (NASTrial Unit)) (st : NASState) (recs : List ((ℕ × ℕ) × ℝ)),
      st.filter_counts = none → st.best_accuracy = 0 →
      (trials.foldl (nasFoldStep oraclesZero) (st, recs)).1.filter_counts = none := by
  intro trials
  induction trials with
  | nil => intro st recs hf _; exact hf
  | cons tr rest ih =>
    intro st recs hf hb
    rw [List.foldl_cons]
    have ha : (nasTrialStep oraclesZero st tr).2.2 = 0 := rfl
    refine ih _ _ ?_ ?_
    · show (nasTrialStep oraclesZero st tr).1.filter_counts = none
      rw [nasTrialStep_filter, if_neg (by rw [ha, hb]; exact lt_irrefl 0)]
      exact hf
    · show (nasTrialStep oraclesZero st tr).1.best_accuracy = 0
      rw [nasTrialStep_best, if_neg (by rw [ha, hb]; exact lt_irrefl 0)]
      exact hb

/-- Each trial appends exactly one printed record. -/
theorem nasFold_records_length {ι : Type} (O : GTNOracles ι) :
    ∀ (trials : List (NASTrial ι)) (p : NASState × List ((ℕ × ℕ) × ℝ)),
      (trials.foldl (nasFoldStep O) p).2.length = p.2.length + trials.length := by
  intro trials
  induction trials with
  | nil => intro p; simp
  | cons tr rest ih =>
    intro p
    rw [List.foldl_cons, ih]
    have hone : (nasFoldStep O p tr).2.length = p.2.length + 1 := by
      show (p.2 ++ [(nasTrialStep O p.1 tr).2]).length = _
      simp
    rw [hone]
    simp only [List.length_cons]
    omega

/-- Counterexample to C6 as stated: a run of 10 trials (widths (1,1), inside
the sampled ranges) in which every trial records validation accuracy 0 binds
no best pair at all: `filter_counts` is still `none` after all 10 trials, so
no best architecture is reported (the final report would raise `NameError`),
contradicting the claim that EVERY run of 10 trials reports such a pair. -/
theorem nas_all_zero_accuracy_counterexample :
    (nasRun oraclesZero twZero tsZero currZero nasTrials10).1.filter_counts = none
    ∧ (nasRun oraclesZero twZero tsZero currZero nasTrials10).2.length = 10 := by
  constructor
  · exact nasFold_zero_acc nasTrials10 ⟨twZero, tsZero, currZero, 0, none⟩ [] rfl rfl
  · simpa [nasRun, nasTrials10] using nasFold_records_length oraclesZero nasTrials10
      (⟨twZero, tsZero, currZero, 0, none⟩, [])
